import Mathlib

/-!
Verification of the Ground-Track Computation Engine extracted from the
ISS-tracker scripts.  The Python sources are shallowly embedded:

* instants and durations are exact integers (Python `datetime`/`timedelta`
  arithmetic is exact microsecond integer arithmetic), modelled as `ℤ`;
* the propagator (`ephem` satellite object) is an abstract fallible function
  `ℤ → Option GeoPt`; a `none` result models a raised exception, and Python
  exception propagation is modelled by `Option` short-circuiting;
* floating-point arithmetic is modelled over `ℝ`; `np.arctan2 y x` is
  `Complex.arg ⟨x, y⟩`, whose value set and conventions agree with numpy's
  (range `(-π, π]`, `atan2 0 0 = 0`).
-/

/- ## Trail buffer

Embeds the push step of the position-history lists in the sources
(`positions.append(...)` / `past_lons.append(...)` followed by
`if len(...) > N: ....pop(0)`).  `pop(0)` removes exactly one element from
the front; it runs after a single append, so at most one eviction occurs. -/

/-- One push into the bounded trail buffer of capacity `N`: append `x` at the
end, then drop the front element when the length exceeds `N`. -/
def trailPush {α : Type} (N : ℕ) (buf : List α) (x : α) : List α :=
  if N < (buf ++ [x]).length then (buf ++ [x]).drop 1 else buf ++ [x]

/-- Folding all pushes of `ps` into an initially empty buffer keeps exactly
the last `N` pushed elements, in push order. -/
lemma trailPush_foldl_eq_drop {α : Type} (N : ℕ) (ps : List α) :
    ps.foldl (trailPush N) [] = ps.drop (ps.length - N) := by
  induction ps using List.reverseRecOn with
  | nil => simp
  | append_singleton ps x ih =>
    rw [List.foldl_append, ih]
    simp only [List.foldl_cons, List.foldl_nil]
    unfold trailPush
    rcases le_or_lt N ps.length with hN | hN
    · have hlen : (ps.drop (ps.length - N)).length = N := by
        rw [List.length_drop]; omega
      rw [if_pos (by simp [hlen])]
      rcases Nat.eq_zero_or_pos N with rfl | hN1
      · have h1 : ps.drop (ps.length - 0) = ([] : List α) := by
          simp [List.drop_length]
        rw [h1, Nat.sub_zero, List.drop_length]
        rfl
      · rw [List.drop_append_eq_append_drop, List.drop_append_eq_append_drop,
          List.drop_drop, hlen]
        congr 1
        · congr 1
          simp only [List.length_append, List.length_singleton]
          omega
        · congr 1
          simp only [List.length_append, List.length_singleton]
          omega
    · have hlen : ps.length - N = 0 := by omega
      rw [if_neg (by simp; omega), hlen, List.drop_zero]
      have h2 : ps.length + 1 - N = 0 := by omega
      simp [h2]

/-- The buffer built from any push sequence never exceeds the capacity. -/
lemma trailPush_foldl_length_le {α : Type} (N : ℕ) (ps : List α) :
    (ps.foldl (trailPush N) []).length ≤ N := by
  rw [trailPush_foldl_eq_drop, List.length_drop]
  omega

/-- Claim C2: the trail buffer never holds more than its capacity `N`; after
`N + m` pushes (`m > 0`) into an initially empty buffer it holds exactly the
last `N` pushed points in push order (the suffix `ps.drop m`), the oldest
entries having been evicted from the front. -/
theorem claim_C2_trailBuffer {α : Type} (N m : ℕ) (ps : List α)
    (hm : 0 < m) (hlen : ps.length = N + m) :
    ps.foldl (trailPush N) [] = ps.drop m ∧
      (ps.foldl (trailPush N) []).length = N ∧
      ∀ qs : List α, (qs.foldl (trailPush N) []).length ≤ N := by
  refine ⟨?_, ?_, fun qs => trailPush_foldl_length_le N qs⟩
  · rw [trailPush_foldl_eq_drop, hlen]
    congr 1
    omega
  · rw [trailPush_foldl_eq_drop, List.length_drop]
    omega

/-- Claim C2, witness: with capacity 2, pushing `[1,2,3,4]` leaves exactly the
last two points `[3,4]` in push order, within capacity. -/
theorem claim_C2_trailBuffer_witness :
    [1, 2, 3, 4].foldl (trailPush 2) [] = [1, 2, 3, 4].drop 2 ∧
      ([1, 2, 3, 4].foldl (trailPush 2) []).length = 2 ∧
      ∀ qs : List ℕ, (qs.foldl (trailPush 2) []).length ≤ 2 :=
  claim_C2_trailBuffer 2 2 [1, 2, 3, 4] (by decide) (by decide)

/- ## Orbit path sampling

Embeds `calculate_orbit_path`: the `while current <= end_time` loop that
collects instants, followed by one propagation per instant.  The Python loop
does not terminate when `step ≤ 0` (the engine configuration always uses
positive steps); the model returns `[]` in that case and is faithful exactly
for `0 < step`. -/

/-- Instant list of the sampling loop: `cur, cur+step, …` while `cur ≤ endT`
(faithful to the Python `while` loop for `0 < step`). -/
def genTimes (endT step cur : ℤ) : List ℤ :=
  if _h : 0 < step ∧ cur ≤ endT then cur :: genTimes endT step (cur + step) else []
termination_by (endT + step - cur).toNat
decreasing_by
  simp_wf
  omega

lemma genTimes_unfold (endT step cur : ℤ) :
    genTimes endT step cur =
      if 0 < step ∧ cur ≤ endT then cur :: genTimes endT step (cur + step)
      else [] := by
  rw [genTimes]
  simp

lemma genTimes_cons (endT step cur : ℤ) (hs : 0 < step) (hle : cur ≤ endT) :
    genTimes endT step cur = cur :: genTimes endT step (cur + step) := by
  rw [genTimes_unfold, if_pos ⟨hs, hle⟩]

lemma genTimes_nil (endT step cur : ℤ) (h : endT < cur) :
    genTimes endT step cur = [] := by
  rw [genTimes_unfold, if_neg]
  intro hc
  omega

/-- Propagation of every instant of a list.  The Python body
`for t in times: iss_obj.compute(t); ...append(...)` raises out of the whole
function on the first propagation error, so one failure makes the whole
result unavailable: this is `Option` short-circuiting. -/
def propagate_all {G : Type} (p : ℤ → Option G) : List ℤ → Option (List G)
  | [] => some []
  | t :: ts =>
    match p t with
    | none => none
    | some g => (propagate_all p ts).map fun gs => g :: gs

/-- Embeds `calculate_orbit_path(iss_obj, center_time, dt_before, dt_after,
step)`: instants from `center - dt_before` up to `center + dt_after` at the
given step, each propagated; an exception on any instant aborts the whole
computation (`none`). -/
def calculate_orbit_path {G : Type} (p : ℤ → Option G)
    (center dtBefore dtAfter step : ℤ) : Option (List G) :=
  propagate_all p (genTimes (center + dtAfter) step (center - dtBefore))

lemma propagate_all_eq_none {G : Type} (p : ℤ → Option G) (ts : List ℤ)
    (t : ℤ) (ht : t ∈ ts) (hp : p t = none) : propagate_all p ts = none := by
  induction ts with
  | nil => cases ht
  | cons s ss ih =>
    rcases List.mem_cons.mp ht with h | h
    · subst h
      simp [propagate_all, hp]
    · unfold propagate_all
      cases hps : p s with
      | none => rfl
      | some g => rw [ih h]; rfl

/-- Example propagator failing exactly at instant `1`. -/
def failAtOne : ℤ → Option (ℤ × ℤ) := fun t => if t = 1 then none else some (0, 0)

lemma genTimes_zero_two : genTimes 2 1 0 = [0, 1, 2] := by
  rw [genTimes_cons 2 1 0 (by norm_num) (by norm_num)]
  rw [show (0 : ℤ) + 1 = 1 by norm_num]
  rw [genTimes_cons 2 1 1 (by norm_num) (by norm_num)]
  rw [show (1 : ℤ) + 1 = 2 by norm_num]
  rw [genTimes_cons 2 1 2 (by norm_num) (by norm_num)]
  rw [show (2 : ℤ) + 1 = 3 by norm_num]
  rw [genTimes_nil 2 1 3 (by norm_num)]

/-- Claim C3, counterexample: over the window `[0, 2]` with step `1`, a
propagator failing only at instant `1` makes `calculate_orbit_path` return
`none` — the entire path is discarded — although skip-and-continue would have
kept the two remaining samples. -/
theorem claim_C3_counterexample :
    calculate_orbit_path failAtOne 1 1 1 1 = none ∧
      ((genTimes (1 + 1) 1 (1 - 1)).filterMap failAtOne).length = 2 := by
  constructor
  · unfold calculate_orbit_path
    rw [show (1 : ℤ) + 1 = 2 by norm_num, show (1 : ℤ) - 1 = 0 by norm_num,
      genTimes_zero_two]
    simp [propagate_all, failAtOne]
  · rw [show (1 : ℤ) + 1 = 2 by norm_num, show (1 : ℤ) - 1 = 0 by norm_num,
      genTimes_zero_two]
    simp [List.filterMap, failAtOne]

/-- Claim C3, amended: a propagation error on any single instant of the window
aborts the whole path computation — `calculate_orbit_path` returns `none`
and every sample is discarded (the enclosing `update_position` catch then
drops the entire update), not skip-and-continue. -/
theorem claim_C3_error_aborts_path {G : Type} (p : ℤ → Option G)
    (center dtBefore dtAfter step t : ℤ)
    (ht : t ∈ genTimes (center + dtAfter) step (center - dtBefore))
    (hp : p t = none) :
    calculate_orbit_path p center dtBefore dtAfter step = none :=
  propagate_all_eq_none p _ t ht hp

/-- Claim C3, witness for the amended theorem: the propagator failing at
instant `1` inside the window `[0, 2]` makes the whole path `none`. -/
theorem claim_C3_error_aborts_path_witness :
    calculate_orbit_path failAtOne 1 1 1 1 = none :=
  claim_C3_error_aborts_path failAtOne 1 1 1 1 1
    (by rw [show (1 : ℤ) + 1 = 2 by norm_num, show (1 : ℤ) - 1 = 0 by norm_num,
          genTimes_zero_two]
        simp)
    (by simp [failAtOne])

/-- Claim C6: with `dt_before = dt_after = 0` and any positive step, the
sampling window contains exactly the center instant, so the orbit path is the
single sample obtained by propagating `center`. -/
theorem claim_C6_single_sample {G : Type} (p : ℤ → Option G)
    (center step : ℤ) (g : G) (hs : 0 < step) (hp : p center = some g) :
    calculate_orbit_path p center 0 0 step = some [g] := by
  unfold calculate_orbit_path
  rw [show center + 0 = center by ring, show center - 0 = center by ring]
  rw [genTimes_cons center step center hs le_rfl,
    genTimes_nil center step (center + step) (by omega)]
  simp [propagate_all, hp]

/-- Claim C6, witness: a propagator returning `(7, 8)` everywhere, sampled at
center `5` with `before = after = 0` and step `1`, yields exactly one sample. -/
theorem claim_C6_single_sample_witness :
    calculate_orbit_path (fun _ => some ((7 : ℤ), (8 : ℤ))) 5 0 0 1 =
      some [(7, 8)] :=
  claim_C6_single_sample (fun _ => some ((7 : ℤ), (8 : ℤ))) 5 1 (7, 8)
    (by norm_num) rfl

/- ## Time cursor

Embeds the keyboard time navigation of `on_key`: right/left arrows add or
subtract `time_step`, shift+arrows add or subtract `long_time_step`, on the
exact integer `current_time`. -/

inductive Direction : Type
  | forward
  | backward

inductive Magnitude : Type
  | short
  | long

structure TimeCursor : Type where
  current : ℤ
  short_step : ℤ
  long_step : ℤ

/-- One keyboard navigation event: `current ± (short or long) step`. -/
def TimeCursor.advance (c : TimeCursor) (d : Direction) (m : Magnitude) :
    TimeCursor :=
  { c with
    current := c.current +
      (match d with | .forward => 1 | .backward => -1) *
        (match m with | .short => c.short_step | .long => c.long_step) }

/-- Claim C7: advancing the cursor forward by the short step and then backward
by the short step restores the current instant exactly. -/
theorem claim_C7_advance_roundtrip (c : TimeCursor) :
    ((c.advance .forward .short).advance .backward .short).current = c.current := by
  simp [TimeCursor.advance]

/- ## Geodesy: degree/radian conversion and the visibility circle

Embeds `calculate_visibility_circle(lat, lon, radius_km)`.  `np.linspace(0,
2*np.pi, 100)` produces 100 values over the closed interval `[0, 2π]` at step
`2π/99` (endpoint included).  `np.arctan2(y, x)` is `Complex.arg ⟨x, y⟩`. -/

noncomputable def toRad (x : ℝ) : ℝ := x * (Real.pi / 180)

noncomputable def toDeg (x : ℝ) : ℝ := x * (180 / Real.pi)

/-- numpy `arctan2(y, x)`: the argument of the complex number `x + y·i`,
in `(-π, π]`, with `atan2 0 0 = 0`. -/
noncomputable def atan2 (y x : ℝ) : ℝ := Complex.arg ⟨x, y⟩

/-- numpy `linspace a b n`: `n` evenly spaced values from `a` to `b`, both
endpoints included (step `(b - a)/(n - 1)`). -/
noncomputable def linspace (a b : ℝ) (n : ℕ) : List ℝ :=
  (List.range n).map fun (i : ℕ) => a + (b - a) * (i : ℝ) / ((n : ℝ) - 1)

/-- Loop body of `calculate_visibility_circle`: the point of the circle of
ground radius `radius_km` around `(lat, lon)` at the given bearing, returned
as `(longitude_deg, latitude_deg)` in the order the source returns its two
lists. -/
noncomputable def circle_point (lat lon radius_km angle : ℝ) : ℝ × ℝ :=
  let delta := radius_km / 6371
  let circle_lat := Real.arcsin
    (Real.sin (toRad lat) * Real.cos delta +
      Real.cos (toRad lat) * Real.sin delta * Real.cos angle)
  let circle_lon := toRad lon +
    atan2 (Real.sin angle * Real.sin delta * Real.cos (toRad lat))
      (Real.cos delta - Real.sin (toRad lat) * Real.sin circle_lat)
  (toDeg circle_lon, toDeg circle_lat)

/-- Embeds `calculate_visibility_circle`: one point per angle of
`np.linspace(0, 2π, 100)`. -/
noncomputable def calculate_visibility_circle (lat lon radius_km : ℝ) :
    List (ℝ × ℝ) :=
  (linspace 0 (2 * Real.pi) 100).map (circle_point lat lon radius_km)

/-- Modelled from the spec: `Samples point_count bearings evenly spaced over
[0, 2π)` — the half-open sampling the specification describes, at bearings
`2π·k/100` for `k = 0, …, 99`.  Stated for comparison with the source's
`calculate_visibility_circle`, which uses the closed interval instead. -/
noncomputable def visibility_circle_half_open (lat lon radius_km : ℝ) :
    List (ℝ × ℝ) :=
  (List.range 100).map fun (i : ℕ) =>
    circle_point lat lon radius_km (2 * Real.pi * (i : ℝ) / 100)

@[simp] lemma length_linspace (a b : ℝ) (n : ℕ) : (linspace a b n).length = n := by
  simp [linspace]

@[simp] lemma length_calculate_visibility_circle (lat lon r : ℝ) :
    (calculate_visibility_circle lat lon r).length = 100 := by
  simp [calculate_visibility_circle]

lemma toDeg_toRad (x : ℝ) : toDeg (toRad x) = x := by
  unfold toDeg toRad
  field_simp

lemma circle_point_two_pi (lat lon r : ℝ) :
    circle_point lat lon r (2 * Real.pi) = circle_point lat lon r 0 := by
  simp only [circle_point, Real.cos_two_pi, Real.sin_two_pi, Real.cos_zero,
    Real.sin_zero]

/-- The source's bearing sequence is `i · 2π/99` for `i = 0, …, 99`: the
`np.linspace(0, 2π, 100)` angles written pointwise. -/
lemma visibility_eq_bearings (lat lon r : ℝ) :
    calculate_visibility_circle lat lon r =
      (List.range 100).map fun (i : ℕ) =>
        circle_point lat lon r (2 * Real.pi * (i : ℝ) / 99) := by
  unfold calculate_visibility_circle linspace
  rw [List.map_map]
  apply List.map_congr_left
  intro i hi
  simp only [Function.comp]
  congr 1
  norm_num

/-- Claim C10: the first and the last point of the visibility footprint are
equal — the bearing sequence includes both `0` and `2π`, so the polygon is
explicitly closed by a duplicated vertex. -/
theorem claim_C10_first_eq_last (lat lon r : ℝ) :
    (calculate_visibility_circle lat lon r).get
        ⟨0, by simp⟩ =
      (calculate_visibility_circle lat lon r).get
        ⟨99, by simp⟩ := by
  have hb := visibility_eq_bearings lat lon r
  simp only [List.get_eq_getElem, List.getElem_of_eq hb, List.getElem_map,
    List.getElem_range]
  rw [show 2 * Real.pi * ((0 : ℕ) : ℝ) / 99 = 0 by norm_num,
    show 2 * Real.pi * ((99 : ℕ) : ℝ) / 99 = 2 * Real.pi by norm_num,
    circle_point_two_pi]

@[simp] lemma length_visibility_circle_half_open (lat lon r : ℝ) :
    (visibility_circle_half_open lat lon r).length = 100 := by
  simp [visibility_circle_half_open]

/-- Claim C1, amended: the footprint returns exactly 100 points, but at
bearings evenly spaced over the closed interval `[0, 2π]` at step `2π/99`
(`np.linspace` includes the endpoint), so the first and last bearings are
coincident modulo `2π` — not the half-open `[0, 2π)` spacing at step
`2π/100`. -/
theorem claim_C1_footprint_bearings (lat lon r : ℝ) :
    (calculate_visibility_circle lat lon r).length = 100 ∧
      calculate_visibility_circle lat lon r =
        (List.range 100).map fun (i : ℕ) =>
          circle_point lat lon r (2 * Real.pi * (i : ℝ) / 99) :=
  ⟨by simp, visibility_eq_bearings lat lon r⟩

lemma quarter_delta : (6371 : ℝ) * (Real.pi / 2) / 6371 = Real.pi / 2 := by
  field_simp
  ring

lemma toDeg_pi_div_two : toDeg (Real.pi / 2) = 90 := by
  unfold toDeg
  field_simp
  ring

/-- At radius `6371·π/2` around `(0°, 0°)`, the source's last bearing `2π`
puts the 100th point at latitude `90°`. -/
lemma circle_point_quarter_two_pi :
    (circle_point 0 0 (6371 * (Real.pi / 2)) (2 * Real.pi)).2 = 90 := by
  simp only [circle_point]
  rw [show toRad 0 = 0 by simp [toRad]]
  rw [Real.sin_zero, Real.cos_zero, Real.cos_two_pi, quarter_delta,
    Real.sin_pi_div_two]
  norm_num [Real.arcsin_one, toDeg_pi_div_two]

/-- Under the spec's half-open sampling the last bearing is `2π·99/100`, whose
point at radius `6371·π/2` around `(0°, 0°)` has latitude strictly below
`90°`. -/
lemma circle_point_quarter_half_open_lt :
    (circle_point 0 0 (6371 * (Real.pi / 2)) (2 * Real.pi * (99 : ℝ) / 100)).2 <
      90 := by
  have hπ := Real.pi_pos
  simp only [circle_point]
  rw [show toRad 0 = 0 by simp [toRad]]
  rw [Real.sin_zero, Real.cos_zero, quarter_delta, Real.sin_pi_div_two]
  have hx : (0 : ℝ) * Real.cos (Real.pi / 2) +
      1 * 1 * Real.cos (2 * Real.pi * (99 : ℝ) / 100) =
      Real.cos (2 * Real.pi * (99 : ℝ) / 100) := by ring
  rw [hx]
  have hcos : Real.cos (2 * Real.pi * (99 : ℝ) / 100) < 1 := by
    rcases lt_or_eq_of_le (Real.cos_le_one (2 * Real.pi * (99 : ℝ) / 100)) with h | h
    · exact h
    · exfalso
      have h0 : 2 * Real.pi * (99 : ℝ) / 100 = 0 := by
        have habs : |2 * Real.pi * (99 : ℝ) / 100| < 2 * Real.pi := by
          rw [abs_of_pos (by positivity)]
          nlinarith
        exact (Real.cos_eq_one_iff_of_lt_of_lt
          (by nlinarith [abs_lt.mp habs]) (by nlinarith [abs_lt.mp habs])).mp h
      nlinarith
  have harc : Real.arcsin (Real.cos (2 * Real.pi * (99 : ℝ) / 100)) <
      Real.pi / 2 := Real.arcsin_lt_pi_div_two.mpr hcos
  calc toDeg (Real.arcsin (Real.cos (2 * Real.pi * (99 : ℝ) / 100)))
      < toDeg (Real.pi / 2) := by
        unfold toDeg
        have hpos : 0 < 180 / Real.pi := by positivity
        exact mul_lt_mul_of_pos_right harc hpos
    _ = 90 := toDeg_pi_div_two

/-- Claim C1, counterexample: around `(0°, 0°)` with radius `6371·π/2`, the
source's 100th footprint point (bearing `2π`) sits at latitude `90°`, while
the 100th point of the half-open bearing scheme the claim describes (bearing
`2π·99/100`) has latitude strictly below `90°`: the code does not sample the
half-open interval `[0, 2π)` at step `2π/100`. -/
theorem claim_C1_counterexample :
    ((calculate_visibility_circle 0 0 (6371 * (Real.pi / 2))).get
        ⟨99, by simp⟩).2 = 90 ∧
      ((visibility_circle_half_open 0 0 (6371 * (Real.pi / 2))).get
        ⟨99, by simp⟩).2 < 90 := by
  constructor
  · have hb := visibility_eq_bearings 0 0 (6371 * (Real.pi / 2))
    simp only [List.get_eq_getElem, List.getElem_of_eq hb, List.getElem_map,
      List.getElem_range]
    rw [show 2 * Real.pi * ((99 : ℕ) : ℝ) / 99 = 2 * Real.pi by norm_num]
    exact circle_point_quarter_two_pi
  · simp only [visibility_circle_half_open, List.get_eq_getElem,
      List.getElem_map, List.getElem_range]
    rw [show 2 * Real.pi * ((99 : ℕ) : ℝ) / 100 =
        2 * Real.pi * (99 : ℝ) / 100 by norm_num]
    exact circle_point_quarter_half_open_lt

lemma toRad_mem {lat : ℝ} (h1 : -90 ≤ lat) (h2 : lat ≤ 90) :
    -(Real.pi / 2) ≤ toRad lat ∧ toRad lat ≤ Real.pi / 2 := by
  unfold toRad
  have hπ := Real.pi_pos
  constructor
  · nlinarith [mul_nonneg (show (0 : ℝ) ≤ lat + 90 by linarith) hπ.le]
  · nlinarith [mul_nonneg (show (0 : ℝ) ≤ 90 - lat by linarith) hπ.le]

/-- At radius `0`, every footprint point collapses to the center (the source's
`arcsin(sin φ)` round-trip and `arctan2(0, cos²φ) = 0`). -/
lemma circle_point_radius_zero {lat : ℝ} (lon θ : ℝ)
    (h1 : -90 ≤ lat) (h2 : lat ≤ 90) :
    circle_point lat lon 0 θ = (lon, lat) := by
  obtain ⟨hlo, hhi⟩ := toRad_mem h1 h2
  have hδ : (0 : ℝ) / 6371 = 0 := by norm_num
  simp only [circle_point, hδ, Real.cos_zero, Real.sin_zero, mul_zero,
    zero_mul, mul_one, add_zero]
  rw [Real.arcsin_sin hlo hhi]
  have hx : (0 : ℝ) ≤ 1 - Real.sin (toRad lat) * Real.sin (toRad lat) := by
    nlinarith [Real.sin_le_one (toRad lat), Real.neg_one_le_sin (toRad lat)]
  have hatan : atan2 0 (1 - Real.sin (toRad lat) * Real.sin (toRad lat)) = 0 := by
    unfold atan2
    have hz : (⟨1 - Real.sin (toRad lat) * Real.sin (toRad lat), 0⟩ : ℂ) =
        ((1 - Real.sin (toRad lat) * Real.sin (toRad lat) : ℝ) : ℂ) :=
      Complex.ext rfl rfl
    rw [hz]
    exact Complex.arg_ofReal_of_nonneg hx
  rw [hatan, add_zero, toDeg_toRad, toDeg_toRad]

/-- Claim C8, amended: a footprint radius of exactly `0` collapses every point
to the center; any other radius — negative, or exceeding the antipodal
distance `π·6371` — is accepted and still produces a well-defined 100-point
polygon, but a negative radius does NOT collapse to the center. -/
theorem claim_C8_radius_policy :
    (∀ lat lon : ℝ, -90 ≤ lat → lat ≤ 90 →
        ∀ p ∈ calculate_visibility_circle lat lon 0, p = (lon, lat)) ∧
      ∀ lat lon r : ℝ, (calculate_visibility_circle lat lon r).length = 100 := by
  constructor
  · intro lat lon h1 h2 p hp
    unfold calculate_visibility_circle at hp
    rcases List.mem_map.mp hp with ⟨θ, hθ, rfl⟩
    exact circle_point_radius_zero lon θ h1 h2
  · intro lat lon r
    simp

/-- Claim C8, witness: at center `(10°, 20°)` the radius-0 footprint contains
only copies of the center, and the radius `2000` footprint has 100 points. -/
theorem claim_C8_radius_policy_witness :
    (∀ p ∈ calculate_visibility_circle 10 20 0, p = ((20 : ℝ), (10 : ℝ))) ∧
      (calculate_visibility_circle 10 20 2000).length = 100 :=
  ⟨fun p hp => claim_C8_radius_policy.1 10 20 (by norm_num) (by norm_num) p hp,
    claim_C8_radius_policy.2 10 20 2000⟩

/-- Claim C8, counterexample: at center `(0°, 0°)` and radius `-6371·π/2`
(a negative radius, which the claim says collapses all points to the center)
the first footprint point lies at latitude `-90°`, not at the center. -/
theorem claim_C8_counterexample :
    (calculate_visibility_circle 0 0 (-(6371 * (Real.pi / 2)))).get
        ⟨0, by simp⟩ ≠ ((0 : ℝ), (0 : ℝ)) := by
  have hb := visibility_eq_bearings 0 0 (-(6371 * (Real.pi / 2)))
  have hval : ((calculate_visibility_circle 0 0 (-(6371 * (Real.pi / 2)))).get
      ⟨0, by simp⟩).2 = -90 := by
    simp only [List.get_eq_getElem, List.getElem_of_eq hb, List.getElem_map,
      List.getElem_range]
    rw [show 2 * Real.pi * ((0 : ℕ) : ℝ) / 99 = 0 by norm_num]
    simp only [circle_point]
    rw [show toRad 0 = 0 by simp [toRad]]
    rw [show -(6371 * (Real.pi / 2)) / 6371 = -(Real.pi / 2) by
      field_simp
      ring]
    rw [Real.sin_zero, Real.cos_zero, Real.cos_neg, Real.sin_neg,
      Real.sin_pi_div_two]
    rw [show (0 : ℝ) * Real.cos (Real.pi / 2) + 1 * -1 * 1 = -1 by ring]
    rw [Real.arcsin_neg_one]
    unfold toDeg
    field_simp
    ring
  intro heq
  rw [heq] at hval
  norm_num at hval

lemma toDeg_toRad_add (lon A : ℝ) :
    toDeg (toRad lon + A) = lon + A * (180 / Real.pi) := by
  unfold toDeg toRad
  have hπ := Real.pi_ne_zero
  field_simp

lemma atan2_mem_Ioc (y x : ℝ) : -Real.pi < atan2 y x ∧ atan2 y x ≤ Real.pi :=
  ⟨Complex.neg_pi_lt_arg _, Complex.arg_le_pi _⟩

/-- Claim C9, amended: the engine performs no longitude normalization; each
footprint longitude merely lies within the half-open band
`(center_lon - 180, center_lon + 180]` around the center longitude (since
`arctan2` ranges over `(-π, π]`), and so can leave the canonical range
`(-180, 180]` whenever the center longitude is near the antimeridian. -/
theorem claim_C9_longitude_window (lat lon r : ℝ) :
    ∀ p ∈ calculate_visibility_circle lat lon r,
      lon - 180 < p.1 ∧ p.1 ≤ lon + 180 := by
  intro p hp
  unfold calculate_visibility_circle at hp
  rcases List.mem_map.mp hp with ⟨θ, hθ, rfl⟩
  have hπ := Real.pi_pos
  simp only [circle_point]
  rw [toDeg_toRad_add]
  obtain ⟨hlo, hhi⟩ := atan2_mem_Ioc
    (Real.sin θ * Real.sin (r / 6371) * Real.cos (toRad lat))
    (Real.cos (r / 6371) - Real.sin (toRad lat) *
      Real.sin (Real.arcsin (Real.sin (toRad lat) * Real.cos (r / 6371) +
        Real.cos (toRad lat) * Real.sin (r / 6371) * Real.cos θ)))
  have hpos : (0 : ℝ) < 180 / Real.pi := by positivity
  have hub : Real.pi * (180 / Real.pi) = 180 := by field_simp
  constructor
  · have := mul_lt_mul_of_pos_right hlo hpos
    nlinarith
  · have := mul_le_mul_of_nonneg_right hhi hpos.le
    nlinarith

lemma circle_point_origin : circle_point 0 0 0 0 = ((0 : ℝ), (0 : ℝ)) := by
  have h := @circle_point_radius_zero 0 0 0 (by norm_num) (by norm_num)
  simpa using h

/-- Claim C9, witness for the amended theorem: the origin footprint point
`(0, 0)` of the radius-0 footprint at the origin lies in the band
`(-180, 180]` around the center longitude `0`. -/
theorem claim_C9_longitude_window_witness :
    (0 : ℝ) - 180 < ((0 : ℝ), (0 : ℝ)).1 ∧
      ((0 : ℝ), (0 : ℝ)).1 ≤ (0 : ℝ) + 180 :=
  claim_C9_longitude_window 0 0 0 (0, 0)
    (by rw [visibility_eq_bearings]
        refine List.mem_map.mpr ⟨0, List.mem_range.mpr (by norm_num), ?_⟩
        rw [show 2 * Real.pi * ((0 : ℕ) : ℝ) / 99 = 0 by norm_num]
        exact circle_point_origin)

/-- Claim C9, counterexample: with the center at latitude `0°`, longitude
`180°` (a valid sub-point longitude) and the configured radius `2000` km, the
footprint's second point has longitude strictly greater than `180°` — outside
the canonical range `(-180, 180]`.  No normalization is performed. -/
theorem claim_C9_counterexample :
    180 < ((calculate_visibility_circle 0 180 2000).get ⟨1, by simp⟩).1 := by
  have hb := visibility_eq_bearings 0 180 2000
  simp only [List.get_eq_getElem, List.getElem_of_eq hb, List.getElem_map,
    List.getElem_range]
  rw [show 2 * Real.pi * ((1 : ℕ) : ℝ) / 99 = 2 * Real.pi / 99 by norm_num]
  simp only [circle_point]
  rw [show toRad 0 = 0 by simp [toRad]]
  rw [Real.sin_zero, Real.cos_zero]
  rw [show Real.sin (2 * Real.pi / 99) * Real.sin (2000 / 6371) * 1 =
      Real.sin (2 * Real.pi / 99) * Real.sin (2000 / 6371) by ring]
  rw [show Real.cos ((2000 : ℝ) / 6371) -
      0 * Real.sin (Real.arcsin (0 * Real.cos ((2000 : ℝ) / 6371) +
        1 * Real.sin ((2000 : ℝ) / 6371) * Real.cos (2 * Real.pi / 99))) =
      Real.cos ((2000 : ℝ) / 6371) by ring]
  rw [toDeg_toRad_add]
  have hπ := Real.pi_pos
  have hθpos : 0 < 2 * Real.pi / 99 := by positivity
  have hθlt : 2 * Real.pi / 99 < Real.pi := by nlinarith
  have hsθ : 0 < Real.sin (2 * Real.pi / 99) :=
    Real.sin_pos_of_pos_of_lt_pi hθpos hθlt
  have hδpos : (0 : ℝ) < 2000 / 6371 := by norm_num
  have hδlt : (2000 : ℝ) / 6371 < Real.pi := by
    nlinarith [Real.pi_gt_three]
  have hsδ : 0 < Real.sin ((2000 : ℝ) / 6371) :=
    Real.sin_pos_of_pos_of_lt_pi hδpos hδlt
  have him : 0 < Real.sin (2 * Real.pi / 99) * Real.sin ((2000 : ℝ) / 6371) :=
    mul_pos hsθ hsδ
  have harg : 0 < atan2 (Real.sin (2 * Real.pi / 99) *
      Real.sin ((2000 : ℝ) / 6371)) (Real.cos ((2000 : ℝ) / 6371)) := by
    unfold atan2
    have h0 : (0 : ℝ) ≤ Complex.arg ⟨Real.cos ((2000 : ℝ) / 6371),
        Real.sin (2 * Real.pi / 99) * Real.sin ((2000 : ℝ) / 6371)⟩ :=
      Complex.arg_nonneg_iff.mpr him.le
    rcases eq_or_lt_of_le h0 with heq | hlt
    · exfalso
      have hz := (Complex.arg_eq_zero_iff.mp heq.symm).2
      exact him.ne' hz
    · exact hlt
  have hmul : 0 < atan2 (Real.sin (2 * Real.pi / 99) *
      Real.sin ((2000 : ℝ) / 6371)) (Real.cos ((2000 : ℝ) / 6371)) *
      (180 / Real.pi) :=
    mul_pos harg (by positivity)
  linarith

/- ## Geodesy: haversine and straight-line distance

Embeds `haversine_distance(lat1, lon1, lat2, lon2)` and
`straight_line_distance(lat1, lon1, alt1, lat2, lon2, alt2)`. -/

/-- The intermediate `a` of `haversine_distance`:
`sin²(Δφ/2) + cos φ₁ · cos φ₂ · sin²(Δλ/2)` (all in radians). -/
noncomputable def hav_a (lat1 lon1 lat2 lon2 : ℝ) : ℝ :=
  Real.sin ((toRad lat2 - toRad lat1) / 2) ^ 2 +
    Real.cos (toRad lat1) * Real.cos (toRad lat2) *
      Real.sin ((toRad lon2 - toRad lon1) / 2) ^ 2

/-- Embeds `haversine_distance`: `6371 * 2 * arcsin(sqrt a)`. -/
noncomputable def haversine_distance (lat1 lon1 lat2 lon2 : ℝ) : ℝ :=
  6371 * 2 * Real.arcsin (Real.sqrt (hav_a lat1 lon1 lat2 lon2))

/-- Embeds `straight_line_distance`: Euclidean distance between the two
Earth-centered Cartesian positions at radius `6371 + altitude`. -/
noncomputable def straight_line_distance
    (lat1 lon1 alt1 lat2 lon2 alt2 : ℝ) : ℝ :=
  Real.sqrt
    (((6371 + alt2) * Real.cos (toRad lat2) * Real.cos (toRad lon2) -
        (6371 + alt1) * Real.cos (toRad lat1) * Real.cos (toRad lon1)) ^ 2 +
      ((6371 + alt2) * Real.cos (toRad lat2) * Real.sin (toRad lon2) -
        (6371 + alt1) * Real.cos (toRad lat1) * Real.sin (toRad lon1)) ^ 2 +
      ((6371 + alt2) * Real.sin (toRad lat2) -
        (6371 + alt1) * Real.sin (toRad lat1)) ^ 2)

lemma toRad_ninety : toRad 90 = Real.pi / 2 := by
  unfold toRad
  ring

lemma toRad_neg_ninety : toRad (-90) = -(Real.pi / 2) := by
  unfold toRad
  ring

lemma toRad_inj {x y : ℝ} (h : toRad x = toRad y) : x = y := by
  unfold toRad at h
  have h180 : Real.pi / 180 ≠ 0 := by
    have := Real.pi_ne_zero
    positivity
  exact mul_right_cancel₀ h180 h

lemma cos_toRad_nonneg {lat : ℝ} (h1 : -90 ≤ lat) (h2 : lat ≤ 90) :
    0 ≤ Real.cos (toRad lat) := by
  obtain ⟨hlo, hhi⟩ := toRad_mem h1 h2
  exact Real.cos_nonneg_of_mem_Icc ⟨hlo, hhi⟩

lemma cos_toRad_eq_zero_iff {lat : ℝ} (h1 : -90 ≤ lat) (h2 : lat ≤ 90) :
    Real.cos (toRad lat) = 0 ↔ lat = 90 ∨ lat = -90 := by
  constructor
  · intro hc
    obtain ⟨hlo, hhi⟩ := toRad_mem h1 h2
    rcases lt_or_eq_of_le hhi with hlt2 | heq2
    · rcases lt_or_eq_of_le hlo with hlt1 | heq1
      · exfalso
        have := Real.cos_pos_of_mem_Ioo ⟨hlt1, hlt2⟩
        linarith
      · right
        apply toRad_inj
        rw [toRad_neg_ninety]
        exact heq1.symm
    · left
      apply toRad_inj
      rw [toRad_ninety]
      exact heq2
  · intro h
    rcases h with h | h
    · rw [h, toRad_ninety, Real.cos_pi_div_two]
    · rw [h, toRad_neg_ninety, Real.cos_neg, Real.cos_pi_div_two]

lemma hav_a_nonneg {lat1 lat2 : ℝ} (lon1 lon2 : ℝ)
    (h1 : -90 ≤ lat1) (h2 : lat1 ≤ 90) (h3 : -90 ≤ lat2) (h4 : lat2 ≤ 90) :
    0 ≤ hav_a lat1 lon1 lat2 lon2 := by
  unfold hav_a
  have hc1 := cos_toRad_nonneg h1 h2
  have hc2 := cos_toRad_nonneg h3 h4
  have hq1 := sq_nonneg (Real.sin ((toRad lat2 - toRad lat1) / 2))
  have hprod : 0 ≤ Real.cos (toRad lat1) * Real.cos (toRad lat2) *
      Real.sin ((toRad lon2 - toRad lon1) / 2) ^ 2 :=
    mul_nonneg (mul_nonneg hc1 hc2)
      (sq_nonneg (Real.sin ((toRad lon2 - toRad lon1) / 2)))
  linarith

lemma hav_a_symm (lat1 lon1 lat2 lon2 : ℝ) :
    hav_a lat1 lon1 lat2 lon2 = hav_a lat2 lon2 lat1 lon1 := by
  have hs : ∀ x y : ℝ, Real.sin ((x - y) / 2) ^ 2 = Real.sin ((y - x) / 2) ^ 2 := by
    intro x y
    rw [show (x - y) / 2 = -((y - x) / 2) by ring, Real.sin_neg]
    ring
  unfold hav_a
  rw [hs (toRad lat2) (toRad lat1), hs (toRad lon2) (toRad lon1)]
  ring

lemma hav_a_self (lat lon : ℝ) : hav_a lat lon lat lon = 0 := by
  unfold hav_a
  rw [sub_self, sub_self]
  norm_num

lemma haversine_eq_zero_iff_hav_a {lat1 lon1 lat2 lon2 : ℝ}
    (h : 0 ≤ hav_a lat1 lon1 lat2 lon2) :
    haversine_distance lat1 lon1 lat2 lon2 = 0 ↔
      hav_a lat1 lon1 lat2 lon2 = 0 := by
  unfold haversine_distance
  constructor
  · intro hd
    have harc : Real.arcsin (Real.sqrt (hav_a lat1 lon1 lat2 lon2)) = 0 := by
      linarith
    have hnn : 0 ≤ Real.sqrt (hav_a lat1 lon1 lat2 lon2) := Real.sqrt_nonneg _
    have hnp : ¬ 0 < Real.sqrt (hav_a lat1 lon1 lat2 lon2) := by
      intro hpos
      have := Real.arcsin_pos.mpr hpos
      linarith
    have hs0 : Real.sqrt (hav_a lat1 lon1 lat2 lon2) = 0 :=
      le_antisymm (not_lt.mp hnp) hnn
    have hle := Real.sqrt_eq_zero'.mp hs0
    linarith
  · intro h0
    rw [h0, Real.sqrt_zero, Real.arcsin_zero, mul_zero]

lemma hav_a_eq_zero_iff {lat1 lat2 : ℝ} (lon1 lon2 : ℝ)
    (h1 : -90 ≤ lat1) (h2 : lat1 ≤ 90) (h3 : -90 ≤ lat2) (h4 : lat2 ≤ 90) :
    hav_a lat1 lon1 lat2 lon2 = 0 ↔
      lat1 = lat2 ∧
        (lat1 = 90 ∨ lat1 = -90 ∨ ∃ n : ℤ, lon2 - lon1 = 360 * n) := by
  have hπ := Real.pi_pos
  have hc1 := cos_toRad_nonneg h1 h2
  have hc2 := cos_toRad_nonneg h3 h4
  obtain ⟨hlo1, hhi1⟩ := toRad_mem h1 h2
  obtain ⟨hlo2, hhi2⟩ := toRad_mem h3 h4
  constructor
  · intro h0
    unfold hav_a at h0
    have hq1 := sq_nonneg (Real.sin ((toRad lat2 - toRad lat1) / 2))
    have hq2 := sq_nonneg (Real.sin ((toRad lon2 - toRad lon1) / 2))
    have hprod : 0 ≤ Real.cos (toRad lat1) * Real.cos (toRad lat2) *
        Real.sin ((toRad lon2 - toRad lon1) / 2) ^ 2 :=
      mul_nonneg (mul_nonneg hc1 hc2) hq2
    have hT1 : Real.sin ((toRad lat2 - toRad lat1) / 2) ^ 2 = 0 := by
      linarith
    have hT2 : Real.cos (toRad lat1) * Real.cos (toRad lat2) *
        Real.sin ((toRad lon2 - toRad lon1) / 2) ^ 2 = 0 := by
      linarith
    have hsin1 : Real.sin ((toRad lat2 - toRad lat1) / 2) = 0 :=
      sq_eq_zero_iff.mp hT1
    have hdiff : (toRad lat2 - toRad lat1) / 2 = 0 :=
      (Real.sin_eq_zero_iff_of_lt_of_lt (by linarith) (by linarith)).mp hsin1
    have hlat : lat1 = lat2 := toRad_inj (by linarith)
    refine ⟨hlat, ?_⟩
    rcases mul_eq_zero.mp hT2 with hcc | hs2
    · rcases mul_eq_zero.mp hcc with hcz | hcz
      · rcases (cos_toRad_eq_zero_iff h1 h2).mp hcz with h | h
        · exact Or.inl h
        · exact Or.inr (Or.inl h)
      · rcases (cos_toRad_eq_zero_iff h3 h4).mp hcz with h | h
        · exact Or.inl (by rw [hlat]; exact h)
        · exact Or.inr (Or.inl (by rw [hlat]; exact h))
    · right
      right
      have hsl : Real.sin ((toRad lon2 - toRad lon1) / 2) = 0 :=
        sq_eq_zero_iff.mp hs2
      rcases Real.sin_eq_zero_iff.mp hsl with ⟨n, hn⟩
      refine ⟨n, ?_⟩
      have hr : toRad lon2 - toRad lon1 = (lon2 - lon1) * (Real.pi / 180) := by
        unfold toRad
        ring
      rw [hr] at hn
      have hmul : (lon2 - lon1) * Real.pi = 360 * n * Real.pi := by
        linear_combination (-360 : ℝ) * hn
      have := mul_right_cancel₀ Real.pi_ne_zero hmul
      linarith
  · rintro ⟨hlat, hcase⟩
    subst hlat
    unfold hav_a
    rcases hcase with h | h | ⟨n, hn⟩
    · rw [h, toRad_ninety, Real.cos_pi_div_two]
      simp
    · rw [h, toRad_neg_ninety, Real.cos_neg, Real.cos_pi_div_two]
      simp
    · have hsl : Real.sin ((toRad lon2 - toRad lon1) / 2) = 0 := by
        apply Real.sin_eq_zero_iff.mpr
        refine ⟨n, ?_⟩
        unfold toRad
        linear_combination (-(Real.pi / 360)) * hn
      rw [hsl, sub_self]
      norm_num

/-- Claim C4, amended: the haversine distance is symmetric and vanishes on
equal points; but it is zero iff the latitudes agree AND (the longitudes
agree modulo 360° OR both points sit at a pole, `lat = ±90`): at the poles
the longitude term is annihilated by `cos(±π/2) = 0`, so "zero iff same
lat/lon mod wrap" fails there. -/
theorem claim_C4_haversine_props :
    (∀ lat1 lon1 lat2 lon2 : ℝ,
        haversine_distance lat1 lon1 lat2 lon2 =
          haversine_distance lat2 lon2 lat1 lon1) ∧
      (∀ lat lon : ℝ, haversine_distance lat lon lat lon = 0) ∧
      ∀ lat1 lon1 lat2 lon2 : ℝ,
        -90 ≤ lat1 → lat1 ≤ 90 → -90 ≤ lat2 → lat2 ≤ 90 →
        (haversine_distance lat1 lon1 lat2 lon2 = 0 ↔
          lat1 = lat2 ∧
            (lat1 = 90 ∨ lat1 = -90 ∨ ∃ n : ℤ, lon2 - lon1 = 360 * n)) := by
  refine ⟨?_, ?_, ?_⟩
  · intro lat1 lon1 lat2 lon2
    unfold haversine_distance
    rw [hav_a_symm]
  · intro lat lon
    unfold haversine_distance
    rw [hav_a_self, Real.sqrt_zero, Real.arcsin_zero, mul_zero]
  · intro lat1 lon1 lat2 lon2 h1 h2 h3 h4
    rw [haversine_eq_zero_iff_hav_a (hav_a_nonneg lon1 lon2 h1 h2 h3 h4)]
    exact hav_a_eq_zero_iff lon1 lon2 h1 h2 h3 h4

/-- Claim C4, witness: the amended iff applied at the north pole with
longitudes 0 and 100 gives a zero distance. -/
theorem claim_C4_haversine_props_witness :
    haversine_distance 90 0 90 100 = 0 :=
  (claim_C4_haversine_props.2.2 90 0 90 100 (by norm_num) (by norm_num)
    (by norm_num) (by norm_num)).mpr ⟨rfl, Or.inl rfl⟩

/-- Claim C4, counterexample: the two pole points `(90°, 0°)` and
`(90°, 100°)` have haversine distance `0` although their longitudes differ
and are not congruent modulo 360° — the "zero only if same longitude (mod
wrap)" direction of the claim is false. -/
theorem claim_C4_counterexample :
    haversine_distance 90 0 90 100 = 0 ∧
      ¬ ∃ n : ℤ, (100 : ℝ) - 0 = 360 * n := by
  constructor
  · have h : hav_a 90 0 90 100 = 0 := by
      unfold hav_a
      rw [toRad_ninety, Real.cos_pi_div_two]
      simp
    unfold haversine_distance
    rw [h, Real.sqrt_zero, Real.arcsin_zero, mul_zero]
  · rintro ⟨n, hn⟩
    have h1 : (360 * n : ℝ) = 100 := by linarith
    have h2 : (360 * n : ℤ) = 100 := by exact_mod_cast h1
    omega

/- ## Chord identity: straight-line distance versus haversine -/

lemma sin_sq_half (x : ℝ) :
    Real.sin (x / 2) ^ 2 = (1 - Real.cos x) / 2 := by
  have h := Real.cos_two_mul' (x / 2)
  rw [show 2 * (x / 2) = x by ring] at h
  have h2 := Real.sin_sq_add_cos_sq (x / 2)
  linarith

/-- The squared Euclidean distance at surface altitude equals `(2R)²·a`. -/
lemma straight_line_sq (lat1 lon1 lat2 lon2 : ℝ) :
    ((6371 + (0 : ℝ)) * Real.cos (toRad lat2) * Real.cos (toRad lon2) -
        (6371 + (0 : ℝ)) * Real.cos (toRad lat1) * Real.cos (toRad lon1)) ^ 2 +
      ((6371 + (0 : ℝ)) * Real.cos (toRad lat2) * Real.sin (toRad lon2) -
        (6371 + (0 : ℝ)) * Real.cos (toRad lat1) * Real.sin (toRad lon1)) ^ 2 +
      ((6371 + (0 : ℝ)) * Real.sin (toRad lat2) -
        (6371 + (0 : ℝ)) * Real.sin (toRad lat1)) ^ 2 =
      (2 * 6371) ^ 2 * hav_a lat1 lon1 lat2 lon2 := by
  unfold hav_a
  rw [sin_sq_half, sin_sq_half, Real.cos_sub, Real.cos_sub]
  linear_combination
    (6371 : ℝ) ^ 2 * (Real.cos (toRad lat2)) ^ 2 *
        Real.sin_sq_add_cos_sq (toRad lon2) +
      (6371 : ℝ) ^ 2 * (Real.cos (toRad lat1)) ^ 2 *
        Real.sin_sq_add_cos_sq (toRad lon1) +
      (6371 : ℝ) ^ 2 * Real.sin_sq_add_cos_sq (toRad lat1) +
      (6371 : ℝ) ^ 2 * Real.sin_sq_add_cos_sq (toRad lat2)

lemma hav_a_le_one {lat1 lat2 : ℝ} (lon1 lon2 : ℝ)
    (h1 : -90 ≤ lat1) (h2 : lat1 ≤ 90) (h3 : -90 ≤ lat2) (h4 : lat2 ≤ 90) :
    hav_a lat1 lon1 lat2 lon2 ≤ 1 := by
  have hc1 := cos_toRad_nonneg h1 h2
  have hc2 := cos_toRad_nonneg h3 h4
  unfold hav_a
  rw [sin_sq_half, sin_sq_half, Real.cos_sub]
  have hadd : Real.cos (toRad lat1 + toRad lat2) =
      Real.cos (toRad lat1) * Real.cos (toRad lat2) -
        Real.sin (toRad lat1) * Real.sin (toRad lat2) :=
    Real.cos_add (toRad lat1) (toRad lat2)
  have hle := Real.cos_le_one (toRad lat1 + toRad lat2)
  have hcos2 := Real.neg_one_le_cos (toRad lon2 - toRad lon1)
  have hprod : 0 ≤ Real.cos (toRad lat1) * Real.cos (toRad lat2) *
      (1 + Real.cos (toRad lon2 - toRad lon1)) :=
    mul_nonneg (mul_nonneg hc1 hc2) (by linarith)
  nlinarith

/-- Claim C5: for two surface points (altitudes 0, latitudes in range), the
straight-line (Earth-centered Euclidean) distance equals exactly the chord
length `2·6371·sin(d/(2·6371))` of the haversine distance `d`. -/
theorem claim_C5_chord (lat1 lon1 lat2 lon2 : ℝ)
    (h1 : -90 ≤ lat1) (h2 : lat1 ≤ 90) (h3 : -90 ≤ lat2) (h4 : lat2 ≤ 90) :
    straight_line_distance lat1 lon1 0 lat2 lon2 0 =
      2 * 6371 *
        Real.sin (haversine_distance lat1 lon1 lat2 lon2 / (2 * 6371)) := by
  have ha0 := hav_a_nonneg lon1 lon2 h1 h2 h3 h4
  have ha1 := hav_a_le_one lon1 lon2 h1 h2 h3 h4
  have hd : haversine_distance lat1 lon1 lat2 lon2 / (2 * 6371) =
      Real.arcsin (Real.sqrt (hav_a lat1 lon1 lat2 lon2)) := by
    unfold haversine_distance
    ring
  rw [hd, Real.sin_arcsin
    (le_trans (by norm_num) (Real.sqrt_nonneg (hav_a lat1 lon1 lat2 lon2)))
    (Real.sqrt_le_one.mpr ha1)]
  unfold straight_line_distance
  rw [straight_line_sq]
  rw [Real.sqrt_mul (by positivity) (hav_a lat1 lon1 lat2 lon2)]
  rw [Real.sqrt_sq (by norm_num : (0 : ℝ) ≤ 2 * 6371)]

/-- Claim C5, witness: the chord identity applied at two concrete in-range
points. -/
theorem claim_C5_chord_witness :
    straight_line_distance 0 0 0 0 90 0 =
      2 * 6371 * Real.sin (haversine_distance 0 0 0 90 / (2 * 6371)) :=
  claim_C5_chord 0 0 0 90 (by norm_num) (by norm_num) (by norm_num)
    (by norm_num)
